import Mathlib

/-!
Shallow embedding of the storage-engine core of the `databaseCMU` repository
(BusTub project 1 style): the LRU-K replacer (`src/buffer/lru_k_replacer.cpp`),
the buffer pool manager (`src/buffer/buffer_pool_manager.cpp`), and the page
guards (`src/storage/page/page_guard.cpp`).

Modelling conventions:
* Machine integers (`page_id_t`, `frame_id_t`, which are signed 32-bit in
  BusTub) are modelled as `Int`; `size_t` counters as `Nat`.  The sentinel
  `INVALID_PAGE_ID` is `-1`, as in BusTub's `common/config.h` (that header is
  not part of this repository's sources; the spec confirms the sentinel).
* The C++ containers `std::unordered_map` and the replacer's node store are
  modelled as association lists with explicit iteration order (the order of
  the list models the iteration order of the C++ container); `std::list` is
  modelled as a `List` with `front`/`pop_front` at the head and `push_back`
  appending at the tail.
* An operation that can hit `BUSTUB_ASSERT` / `BUSTUB_ENSURE`, throw
  (`std::optional::value` on an empty optional), or dereference a null
  pointer is modelled as returning `Option`; `none` models the abort.
* All locking (`bpm_latch_`, the replacer latch, per-frame rw-latches) is
  modelled away: the embedding is of single-threaded sequential executions,
  which is what the claims quantify over.
* The disk scheduler plus disk manager pair is modelled as a synchronous
  page store (an association list from page id to page bytes, pages absent
  from the list read as all zero bytes): `Schedule` of a request followed by
  `future.get()` on its completion is exactly one synchronous read or write,
  which is the behaviour of the worker loop in
  `src/storage/disk/disk_scheduler.cpp` for a single outstanding request.
-/

namespace Bustub

/-- Modelled from the spec and BusTub's `common/config.h` (not under the
repository's sources): the invalid page id sentinel, `-1`. -/
def INVALID_PAGE_ID : Int := -1

/-- Modelled from the spec and BusTub's `common/config.h` (not under the
repository's sources): the fixed page size in bytes. -/
def BUSTUB_PAGE_SIZE : Nat := 4096

/-- Modelled from the spec and BusTub's `common/config.h` (not under the
repository's sources): the access type passed to `RecordAccess`; the only
distinction the code makes is `Scan` versus everything else. -/
inductive AccessType where
  | Unknown
  | Lookup
  | Scan
  | Index
deriving DecidableEq, Repr

/-- Association-list lookup, mirroring `find` on a C++ map: the first entry
with the given key. -/
def alistLookup {β : Type} (l : List (Int × β)) (key : Int) : Option β :=
  match l with
  | [] => none
  | (a, b) :: rest => if a = key then some b else alistLookup rest key

/-- Association-list erase, mirroring `erase(key)` on a C++ map (the keys are
unique in every state the code builds, so filtering is exact). -/
def alistErase {β : Type} (l : List (Int × β)) (key : Int) : List (Int × β) :=
  l.filter (fun x => x.1 ≠ key)

/-- Update the first entry with the given key in place (mirrors mutating
`iter->second` of a C++ map); no change when the key is absent. -/
def alistUpdate {β : Type} (l : List (Int × β)) (key : Int) (g : β → β) :
    List (Int × β) :=
  match l with
  | [] => []
  | (a, b) :: rest =>
      if a = key then (a, g b) :: rest else (a, b) :: alistUpdate rest key g

/-- Mirrors `emplace`: inserts only when the key is absent (C++ `emplace`
does not overwrite an existing entry). -/
def alistEmplace {β : Type} (l : List (Int × β)) (key : Int) (v : β) :
    List (Int × β) :=
  match alistLookup l key with
  | some _ => l
  | none => l ++ [(key, v)]

/-- One tracked node of the LRU-K replacer.  Modelled from the spec
(`LRUKNode`: bounded history of timestamps, oldest first, and an evictable
flag; the class definition lives in `lru_k_replacer.h`, which is not under
the repository's sources).  A default-constructed node has an empty history
and is not evictable. -/
structure LRUKNode where
  history : List Nat
  is_evictable : Bool
deriving DecidableEq, Repr

/-- The default-constructed `LRUKNode` (used by `node_store_[ans]` and by
`std::make_unique<LRUKNode>()`). -/
def LRUKNode.default : LRUKNode := { history := [], is_evictable := false }

/-- State of `LRUKReplacer` (`src/buffer/lru_k_replacer.cpp`).  `node_store`
is the map from frame id to node, in iteration order. -/
structure LRUKReplacer where
  node_store : List (Int × LRUKNode)
  current_timestamp : Nat
  curr_size : Nat
  replacer_size : Nat
  k : Nat
deriving DecidableEq, Repr

/-- The `LRUKReplacer(num_frames, k)` constructor: empty store, timestamp 0,
size 0. -/
def LRUKReplacer.init (num_frames k : Nat) : LRUKReplacer :=
  { node_store := [], current_timestamp := 0, curr_size := 0,
    replacer_size := num_frames, k := k }

/-- `LRUKReplacer::Size`. -/
def LRUKReplacer.size (s : LRUKReplacer) : Nat := s.curr_size

/-- The loop body of `LRUKReplacer::Evict` (lines 32-60): iterates over the
node store carrying `evict_success`, `is_inf`, `max_delta_time` and `ans`
exactly as the C++ loop does; a node with an empty history is taken
immediately (`break`).  `cur - front` models the `size_t` subtraction
`current_timestamp_ - node.history_.front()`, which never underflows because
recorded timestamps are strictly below the current timestamp. -/
def evictLoop (k cur : Nat) :
    List (Int × LRUKNode) → Bool → Bool → Nat → Int → Bool × Int
  | [], es, _, _, ans => (es, ans)
  | (f, node) :: rest, es, is_inf, maxd, ans =>
      if node.is_evictable = false then
        evictLoop k cur rest es is_inf maxd ans
      else if node.history = [] then
        (true, f)
      else if node.history.length = k ∧ is_inf = false then
        let d := cur - node.history.headD 0
        if maxd < d then evictLoop k cur rest true is_inf d f
        else evictLoop k cur rest true is_inf maxd ans
      else if node.history.length < k then
        let d := cur - node.history.headD 0
        if d > maxd then evictLoop k cur rest true true d f
        else evictLoop k cur rest true true maxd ans
      else
        evictLoop k cur rest true is_inf maxd ans

/-- `LRUKReplacer::Evict`.  When the loop set `evict_success`, the code runs
`curr_size_--; node_store_[ans].history_.clear(); node_store_.erase(ans);`
(the `operator[]` insert of a fresh node followed by `erase` nets to an
erase, also when `ans` is still `INVALID_PAGE_ID`), and then returns
`nullopt` exactly when `ans == INVALID_PAGE_ID`. -/
def LRUKReplacer.Evict (s : LRUKReplacer) : Option Int × LRUKReplacer :=
  let r := evictLoop s.k s.current_timestamp s.node_store false false 0 (-1)
  let s' := if r.1 then
      { s with curr_size := s.curr_size - 1,
               node_store := alistErase s.node_store r.2 }
    else s
  if r.2 = -1 then (none, s') else (some r.2, s')

/-- `LRUKReplacer::RecordAccess`.  `none` models the failure of
`BUSTUB_ASSERT(helper <= replacer_size_)` where `helper` is `frame_id` cast
to `size_t` (a negative frame id casts to a huge value and fails). -/
def LRUKReplacer.RecordAccess (s : LRUKReplacer) (frame_id : Int)
    (access_type : AccessType) : Option LRUKReplacer :=
  if frame_id < 0 ∨ s.replacer_size < frame_id.toNat then none
  else
    match alistLookup s.node_store frame_id with
    | none =>
        if access_type ≠ AccessType.Scan then
          some { s with
                 node_store := s.node_store ++
                   [(frame_id, { history := [s.current_timestamp],
                                 is_evictable := false })],
                 current_timestamp := s.current_timestamp + 1 }
        else
          some { s with
                 node_store := s.node_store ++ [(frame_id, LRUKNode.default)] }
    | some node =>
        if access_type ≠ AccessType.Scan then
          let h := if node.history.length = s.k then node.history.tail
                   else node.history
          some { s with
                 node_store := alistUpdate s.node_store frame_id
                   (fun n => { n with history := h ++ [s.current_timestamp] }),
                 current_timestamp := s.current_timestamp + 1 }
        else some s

/-- `LRUKReplacer::SetEvictable`.  When the frame is untracked the code
inserts a copy of a freshly default-constructed node and then mutates the
local object (`*new_node_ptr`), not the copy inside the map, so only
`curr_size_` changes; for a tracked frame the node in the map is mutated.
`none` models the range assertion as in `RecordAccess`. -/
def LRUKReplacer.SetEvictable (s : LRUKReplacer) (frame_id : Int)
    (set_evictable : Bool) : Option LRUKReplacer :=
  if frame_id < 0 ∨ s.replacer_size < frame_id.toNat then none
  else
    match alistLookup s.node_store frame_id with
    | none =>
        let store' := s.node_store ++ [(frame_id, LRUKNode.default)]
        -- the local node starts with is_evictable = false, so only the
        -- first of the two ifs can fire, incrementing curr_size_
        if set_evictable then
          some { s with node_store := store', curr_size := s.curr_size + 1 }
        else
          some { s with node_store := store' }
    | some node =>
        if set_evictable ∧ node.is_evictable = false then
          some { s with
                 node_store := alistUpdate s.node_store frame_id
                   (fun n => { n with is_evictable := true }),
                 curr_size := s.curr_size + 1 }
        else if set_evictable = false ∧ node.is_evictable then
          some { s with
                 node_store := alistUpdate s.node_store frame_id
                   (fun n => { n with is_evictable := false }),
                 curr_size := s.curr_size - 1 }
        else some s

/-- `LRUKReplacer::Remove`: no-op for an untracked frame; `none` models the
failure of `BUSTUB_ASSERT(node.is_evictable_, ...)`; otherwise the node is
erased and `curr_size_` decremented. -/
def LRUKReplacer.Remove (s : LRUKReplacer) (frame_id : Int) :
    Option LRUKReplacer :=
  match alistLookup s.node_store frame_id with
  | none => some s
  | some node =>
      if node.is_evictable = false then none
      else some { s with node_store := alistErase s.node_store frame_id,
                         curr_size := s.curr_size - 1 }

/-- Number of tracked nodes whose evictable flag is set. -/
def countEvictable (l : List (Int × LRUKNode)) : Nat :=
  (l.filter (fun x => x.2.is_evictable)).length

/-- `FrameHeader` (`buffer_pool_manager.h` / `.cpp`): frame id, pin count,
dirty flag and the page-sized data buffer. -/
structure FrameHeader where
  frame_id : Int
  pin_count : Nat
  is_dirty : Bool
  data : List Nat
deriving DecidableEq, Repr

/-- `FrameHeader::Reset`: zero the buffer, pin count to 0, dirty to false. -/
def FrameHeader.Reset (fr : FrameHeader) : FrameHeader :=
  { fr with data := List.replicate BUSTUB_PAGE_SIZE 0,
            pin_count := 0, is_dirty := false }

/-- The `FrameHeader(frame_id)` constructor: a zeroed buffer of
`BUSTUB_PAGE_SIZE` bytes, then `Reset()`. -/
def FrameHeader.init (frame_id : Int) : FrameHeader :=
  FrameHeader.Reset
    { frame_id := frame_id, pin_count := 0, is_dirty := false,
      data := List.replicate BUSTUB_PAGE_SIZE 0 }

/-- The synchronous view of the disk scheduler plus disk manager: pages by
id; a page never written reads as all zeros (the disk manager zero-fills). -/
def diskRead (disk : List (Int × List Nat)) (page_id : Int) : List Nat :=
  match alistLookup disk page_id with
  | some d => d
  | none => List.replicate BUSTUB_PAGE_SIZE 0

/-- A completed write request `{true, data, page_id, promise}`: the worker
calls `disk_manager_->WritePage(page_id, data)` and signals completion. -/
def diskWrite (disk : List (Int × List Nat)) (page_id : Int)
    (data : List Nat) : List (Int × List Nat) :=
  alistErase disk page_id ++ [(page_id, data)]

/-- State of `BufferPoolManager` (`src/buffer/buffer_pool_manager.cpp`).
The disk scheduler's effect is folded into the `disk` field (see the header
comment of this file); `DiskScheduler::DeallocatePage` and
`DiskScheduler::IncreaseDiskSpace` are modelled from the spec as no-ops on
the page contents (the spec allows `deallocate_page` to be a no-op and
`increase_disk_space` only grows the zero-filled backing store). -/
structure BufferPoolManager where
  num_frames : Nat
  next_page_id : Int
  frames : List FrameHeader
  page_table : List (Int × Int)
  free_frames : List Int
  replacer : LRUKReplacer
  disk : List (Int × List Nat)
deriving DecidableEq, Repr

/-- The `BufferPoolManager(num_frames, disk_manager, k_dist, ...)`
constructor: all frames initialized and placed on the free list. -/
def BufferPoolManager.init (num_frames k_dist : Nat) : BufferPoolManager :=
  { num_frames := num_frames,
    next_page_id := 0,
    frames := (List.range num_frames).map
      (fun i => FrameHeader.init (Int.ofNat i)),
    page_table := [],
    free_frames := (List.range num_frames).map Int.ofNat,
    replacer := LRUKReplacer.init num_frames k_dist,
    disk := [] }

/-- `frames_[fid]`: `none` models the out-of-bounds access. -/
def BufferPoolManager.frameGet (s : BufferPoolManager) (fid : Int) :
    Option FrameHeader :=
  if fid < 0 then none else s.frames.get? fid.toNat

/-- Replace the frame header at index `fid`. -/
def BufferPoolManager.frameSet (s : BufferPoolManager) (fid : Int)
    (fr : FrameHeader) : BufferPoolManager :=
  { s with frames := s.frames.set fid.toNat fr }

/-- `BufferPoolManager::Size`. -/
def BufferPoolManager.size (s : BufferPoolManager) : Nat := s.num_frames

/-- The tail of `NewPage` once the frame `fid` has been obtained. -/
def BufferPoolManager.newPageWithFrame (s : BufferPoolManager) (fid : Int) :
    Option (Int × BufferPoolManager) :=
  match s.frameGet fid with
  | none => none
  | some newpage =>
      let allocate_page_id := s.next_page_id
      let s1 := { s with
        page_table :=
          alistEmplace (alistErase s.page_table newpage.frame_id)
            allocate_page_id fid,
        next_page_id := s.next_page_id + 1 }
      let s2 := s1.frameSet fid newpage.Reset
      match s2.replacer.RecordAccess fid AccessType.Unknown with
      | none => none
      | some rep1 =>
          match rep1.SetEvictable fid false with
          | none => none
          | some rep2 => some (allocate_page_id, { s2 with replacer := rep2 })

/-- `BufferPoolManager::NewPage` (lines 143-197).  Pops the free list if
nonempty, otherwise calls `replacer_->Evict().value()` (`none` models the
`std::bad_optional_access` throw when the replacer has no victim).  Then
`page_table_.erase(newpage->frame_id_)` (note: keyed by the frame id),
allocate the id, `IncreaseDiskSpace`, `page_table_.emplace`, `Reset`,
`RecordAccess`, `SetEvictable(false)`.  The pin-count increment is commented
out in the source. -/
def BufferPoolManager.NewPage (s : BufferPoolManager) :
    Option (Int × BufferPoolManager) :=
  match s.free_frames with
  | fid :: rest =>
      BufferPoolManager.newPageWithFrame { s with free_frames := rest } fid
  | [] =>
      match s.replacer.Evict with
      | (none, _) => none
      | (some fid, rep') =>
          BufferPoolManager.newPageWithFrame { s with replacer := rep' } fid

/-- `BufferPoolManager::FlushPage` (lines 649-671): `none` models the
`BUSTUB_ASSERT(page_id != INVALID_PAGE_ID, ...)` failure; `false` when the
page is not resident; otherwise one synchronous write of the frame's bytes
to the page, then the dirty flag is cleared. -/
def BufferPoolManager.FlushPage (s : BufferPoolManager) (page_id : Int) :
    Option (Bool × BufferPoolManager) :=
  if page_id = INVALID_PAGE_ID then none
  else
    match alistLookup s.page_table page_id with
    | none => some (false, s)
    | some fid =>
        match s.frameGet fid with
        | none => none
        | some fr =>
            let s1 := { s with disk := diskWrite s.disk page_id fr.data }
            some (true, s1.frameSet fid { fr with is_dirty := false })

/-- `BufferPoolManager::DeletePage` (lines 246-270).  `none` arises from
`LRUKReplacer::Remove`'s non-evictable assertion (or an out-of-range frame
id).  `DeallocatePage` is a no-op on the modelled disk. -/
def BufferPoolManager.DeletePage (s : BufferPoolManager) (page_id : Int) :
    Option (Bool × BufferPoolManager) :=
  if page_id = INVALID_PAGE_ID then some (true, s)
  else
    match alistLookup s.page_table page_id with
    | none => some (true, s)
    | some fid =>
        match s.frameGet fid with
        | none => none
        | some fr =>
            if 0 < fr.pin_count then some (false, s)
            else
              let s1 := { s with
                page_table := alistErase s.page_table page_id,
                free_frames := s.free_frames ++ [fid] }
              match s1.replacer.Remove fid with
              | none => none
              | some rep' =>
                  let s2 := { s1 with replacer := rep' }
                  some (true, s2.frameSet fid fr.Reset)

/-- `BufferPoolManager::GetPinCount` (lines 742-753). -/
def BufferPoolManager.GetPinCount (s : BufferPoolManager) (page_id : Int) :
    Option Nat :=
  match alistLookup s.page_table page_id with
  | none => none
  | some fid => (s.frameGet fid).map FrameHeader.pin_count

/-- `ReadPageGuard` data (`page_guard.h`): the shared pointers `frame_`,
`replacer_` and `bpm_latch_` are modelled by their null-or-not state (for
`frame_`, the index of the frame it points into), plus the validity flag.  A
default-constructed guard has null pointers and `is_valid_ = false`. -/
structure ReadPageGuard where
  page_id : Int
  frame : Option Int
  replacer : Bool
  bpm_latch : Bool
  is_valid : Bool
deriving DecidableEq, Repr

/-- The default-constructed `ReadPageGuard` (`page_id_` is indeterminate in
C++; modelled as 0). -/
def ReadPageGuard.default : ReadPageGuard :=
  { page_id := 0, frame := none, replacer := false, bpm_latch := false,
    is_valid := false }

/-- `WritePageGuard` data, modelled like `ReadPageGuard`. -/
structure WritePageGuard where
  page_id : Int
  frame : Option Int
  replacer : Bool
  bpm_latch : Bool
  is_valid : Bool
deriving DecidableEq, Repr

/-- The default-constructed `WritePageGuard`. -/
def WritePageGuard.default : WritePageGuard :=
  { page_id := 0, frame := none, replacer := false, bpm_latch := false,
    is_valid := false }

/-- The private `ReadPageGuard(page_id, frame, replacer, bpm_latch)`
constructor (`page_guard.cpp` lines 40-52): stores the pointers, records an
access (default access type) and un-marks evictability through the shared
replacer, and sets the validity flag.  Returns the guard and the updated
pool. -/
def mkReadPageGuard (s : BufferPoolManager) (page_id : Int) (fid : Int) :
    Option (ReadPageGuard × BufferPoolManager) :=
  match s.frameGet fid with
  | none => none
  | some fr =>
      match s.replacer.RecordAccess fr.frame_id AccessType.Unknown with
      | none => none
      | some rep1 =>
          match rep1.SetEvictable fr.frame_id false with
          | none => none
          | some rep2 =>
              some ({ page_id := page_id, frame := some fid, replacer := true,
                      bpm_latch := true, is_valid := true },
                    { s with replacer := rep2 })

/-- The private `WritePageGuard` constructor (`page_guard.cpp` lines
226-238), identical to the read one up to the latch mode. -/
def mkWritePageGuard (s : BufferPoolManager) (page_id : Int) (fid : Int) :
    Option (WritePageGuard × BufferPoolManager) :=
  match s.frameGet fid with
  | none => none
  | some fr =>
      match s.replacer.RecordAccess fr.frame_id AccessType.Unknown with
      | none => none
      | some rep1 =>
          match rep1.SetEvictable fr.frame_id false with
          | none => none
          | some rep2 =>
              some ({ page_id := page_id, frame := some fid, replacer := true,
                      bpm_latch := true, is_valid := true },
                    { s with replacer := rep2 })

/-- The `ReadPageGuard` move constructor (lines 79-98): `this->Drop()` on
the fresh object is a no-op; for a valid source the pointers are moved and
an access recorded, but the source's `is_valid_` flag is left untouched (the
`that.Drop()` call is commented out in the source).  Returns the new guard,
the moved-from guard, and the pool. -/
def ReadPageGuard.moveCtor (that : ReadPageGuard) (s : BufferPoolManager) :
    Option (ReadPageGuard × ReadPageGuard × BufferPoolManager) :=
  if that.is_valid then
    match that.frame with
    | none => none
    | some fid =>
        match s.frameGet fid with
        | none => none
        | some fr =>
            match s.replacer.RecordAccess fr.frame_id AccessType.Unknown with
            | none => none
            | some rep1 =>
                match rep1.SetEvictable fr.frame_id false with
                | none => none
                | some rep2 =>
                    some ({ page_id := that.page_id, frame := some fid,
                            replacer := true, bpm_latch := true,
                            is_valid := true },
                          { that with frame := none, replacer := false,
                                      bpm_latch := false },
                          { s with replacer := rep2 })
  else some (ReadPageGuard.default, that, s)

/-- The `WritePageGuard` move constructor (lines 255-271): identical shape,
but here the source's `is_valid_` flag is cleared. -/
def WritePageGuard.moveCtor (that : WritePageGuard) (s : BufferPoolManager) :
    Option (WritePageGuard × WritePageGuard × BufferPoolManager) :=
  if that.is_valid then
    match that.frame with
    | none => none
    | some fid =>
        match s.frameGet fid with
        | none => none
        | some fr =>
            match s.replacer.RecordAccess fr.frame_id AccessType.Unknown with
            | none => none
            | some rep1 =>
                match rep1.SetEvictable fr.frame_id false with
                | none => none
                | some rep2 =>
                    some ({ page_id := that.page_id, frame := some fid,
                            replacer := true, bpm_latch := true,
                            is_valid := true },
                          { that with frame := none, replacer := false,
                                      bpm_latch := false, is_valid := false },
                          { s with replacer := rep2 })
  else some (WritePageGuard.default, that, s)

/-- The shared miss path of `CheckedReadPage` / `CheckedWritePage` after the
victim frame `fid` has been selected and any dirty write-back has run:
`page_table_.erase(newpage->frame_id_)` (keyed by the frame id!), then
`emplace(page_id, fid)`, `Reset`, `RecordAccess`, `SetEvictable(false)`. -/
def BufferPoolManager.installMissFrame (s : BufferPoolManager)
    (page_id fid : Int) : Option BufferPoolManager :=
  match s.frameGet fid with
  | none => none
  | some newpage =>
      let s1 := { s with
        page_table :=
          alistEmplace (alistErase s.page_table newpage.frame_id)
            page_id fid }
      let s2 := s1.frameSet fid newpage.Reset
      match s2.replacer.RecordAccess fid AccessType.Unknown with
      | none => none
      | some rep1 =>
          match rep1.SetEvictable fid false with
          | none => none
          | some rep2 => some { s2 with replacer := rep2 }

/-- `BufferPoolManager::CheckedReadPage` (lines 487-566).  The outer
`Option` models aborts; the inner one is the function's `std::optional`
result.  Hit path: increment the pin count, then construct the guard (whose
constructor records the access).  Miss path: `replacer_->Evict()` runs
unconditionally before the free list is consulted; a dirty victim is written
back with the victim frame's id as the request's page id
(`newpage->frame_id_`); then the frame is installed and the guard built, and
the pin count incremented after the constructor returns.  On both paths the
local guard is moved into the returned `std::optional`
(`std::make_optional(std::move(read_guard))`), which runs the guard move
constructor and its replacer side effects once more.  The `access_type`
argument is never used by the code. -/
def BufferPoolManager.CheckedReadPage (s : BufferPoolManager)
    (page_id : Int) (_access_type : AccessType := AccessType.Unknown) :
    Option (Option ReadPageGuard × BufferPoolManager) :=
  if page_id = INVALID_PAGE_ID then some (none, s)
  else
    match alistLookup s.page_table page_id with
    | some fid =>
        match s.frameGet fid with
        | none => none
        | some fr =>
            let s1 := s.frameSet fid { fr with pin_count := fr.pin_count + 1 }
            match mkReadPageGuard s1 page_id fid with
            | none => none
            | some (g, s2) =>
                match g.moveCtor s2 with
                | none => none
                | some (g2, _, s3) => some (some g2, s3)
    | none =>
        let er := s.replacer.Evict
        let s1 := { s with replacer := er.2 }
        match s.free_frames, er.1 with
        | [], none => some (none, s1)
        | free, pid =>
            let (fid, s2) :=
              match free with
              | f :: rest => (f, { s1 with free_frames := rest })
              | [] => (pid.getD (-1), s1)
            match s2.frameGet fid with
            | none => none
            | some newpage =>
                let s3 :=
                  if newpage.is_dirty then
                    { s2 with
                      disk := diskWrite s2.disk newpage.frame_id newpage.data,
                      frames := s2.frames.set fid.toNat
                        { newpage with is_dirty := false } }
                  else s2
                match s3.installMissFrame page_id fid with
                | none => none
                | some s4 =>
                    match mkReadPageGuard s4 page_id fid with
                    | none => none
                    | some (g, s5) =>
                        match s5.frameGet fid with
                        | none => none
                        | some fr5 =>
                            let s6 := s5.frameSet fid
                              { fr5 with pin_count := fr5.pin_count + 1 }
                            match g.moveCtor s6 with
                            | none => none
                            | some (g2, _, s7) => some (some g2, s7)

/-- `BufferPoolManager::CheckedWritePage` (lines 345-437), shaped like
`CheckedReadPage` except that the dirty-victim branch calls
`FlushPage(page_id)` with the id of the page being brought in (while already
holding `bpm_latch_`; in a real execution that re-acquisition self-deadlocks,
but the branch is unreachable because nothing in the code ever sets
`is_dirty_`; the model applies `FlushPage`'s state transition).  As in the
read variant, the local guard is moved into the returned optional. -/
def BufferPoolManager.CheckedWritePage (s : BufferPoolManager)
    (page_id : Int) (_access_type : AccessType := AccessType.Unknown) :
    Option (Option WritePageGuard × BufferPoolManager) :=
  if page_id = INVALID_PAGE_ID then some (none, s)
  else
    match alistLookup s.page_table page_id with
    | some fid =>
        match s.frameGet fid with
        | none => none
        | some fr =>
            let s1 := s.frameSet fid { fr with pin_count := fr.pin_count + 1 }
            match mkWritePageGuard s1 page_id fid with
            | none => none
            | some (g, s2) =>
                match g.moveCtor s2 with
                | none => none
                | some (g2, _, s3) => some (some g2, s3)
    | none =>
        let er := s.replacer.Evict
        let s1 := { s with replacer := er.2 }
        match s.free_frames, er.1 with
        | [], none => some (none, s1)
        | free, pid =>
            let (fid, s2) :=
              match free with
              | f :: rest => (f, { s1 with free_frames := rest })
              | [] => (pid.getD (-1), s1)
            match s2.frameGet fid with
            | none => none
            | some newpage =>
                match (if newpage.is_dirty then
                        (s2.FlushPage page_id).map Prod.snd
                       else some s2) with
                | none => none
                | some s3 =>
                    match s3.installMissFrame page_id fid with
                    | none => none
                    | some s4 =>
                        match mkWritePageGuard s4 page_id fid with
                        | none => none
                        | some (g, s5) =>
                            match s5.frameGet fid with
                            | none => none
                            | some fr5 =>
                                let s6 := s5.frameSet fid
                                  { fr5 with pin_count := fr5.pin_count + 1 }
                                match g.moveCtor s6 with
                                | none => none
                                | some (g2, _, s7) => some (some g2, s7)

/-- `ReadPageGuard::Drop` (lines 183-205): no-op when invalid; an early
return (guard left untouched) when the frame pointer is non-null and the pin
count is already 0; otherwise decrement the pin count, mark the frame
evictable when it reaches 0, then null the pointers and clear the flag. -/
def ReadPageGuard.Drop (g : ReadPageGuard) (s : BufferPoolManager) :
    Option (ReadPageGuard × BufferPoolManager) :=
  if g.is_valid = false then some (g, s)
  else
    match g.frame with
    | some fid =>
        match s.frameGet fid with
        | none => none
        | some fr =>
            if fr.pin_count = 0 then some (g, s)
            else
              let pin' := fr.pin_count - 1
              let s1 := s.frameSet fid { fr with pin_count := pin' }
              match (if pin' = 0 then s1.replacer.SetEvictable fr.frame_id true
                     else some s1.replacer) with
              | none => none
              | some rep' =>
                  some ({ g with frame := none, replacer := false,
                                 bpm_latch := false, is_valid := false },
                        { s1 with replacer := rep' })
    | none =>
        -- a valid guard with a null frame pointer: both pointer guards in
        -- the code are false, so only the pointers and flag are cleared
        some ({ g with frame := none, replacer := false,
                       bpm_latch := false, is_valid := false }, s)

/-- `WritePageGuard::Drop` (lines 351-377): like the read version, except
that the decrement `--frame_->pin_count_` is not guarded by a null check
(`none` models that dereference for a valid guard with a null frame). -/
def WritePageGuard.Drop (g : WritePageGuard) (s : BufferPoolManager) :
    Option (WritePageGuard × BufferPoolManager) :=
  if g.is_valid = false then some (g, s)
  else
    match g.frame with
    | some fid =>
        match s.frameGet fid with
        | none => none
        | some fr =>
            if fr.pin_count = 0 then some (g, s)
            else
              let pin' := fr.pin_count - 1
              let s1 := s.frameSet fid { fr with pin_count := pin' }
              match (if pin' = 0 then s1.replacer.SetEvictable fr.frame_id true
                     else some s1.replacer) with
              | none => none
              | some rep' =>
                  some ({ g with frame := none, replacer := false,
                                 bpm_latch := false, is_valid := false },
                        { s1 with replacer := rep' })
    | none => none

/-- Models a caller storing the byte list `b` through
`WritePageGuard::GetDataMut` (which `BUSTUB_ENSURE`s validity and returns
the frame's mutable buffer); note that nothing in the code sets the dirty
flag. -/
def WritePageGuard.storeBytes (g : WritePageGuard) (s : BufferPoolManager)
    (b : List Nat) : Option BufferPoolManager :=
  if g.is_valid = false then none
  else
    match g.frame with
    | none => none
    | some fid =>
        match s.frameGet fid with
        | none => none
        | some fr => some (s.frameSet fid { fr with data := b })

/-- `ReadPageGuard::GetData` (`BUSTUB_ENSURE`s validity, then dereferences
the frame pointer). -/
def ReadPageGuard.GetData (g : ReadPageGuard) (s : BufferPoolManager) :
    Option (List Nat) :=
  if g.is_valid = false then none
  else
    match g.frame with
    | none => none
    | some fid => (s.frameGet fid).map FrameHeader.data

/-- The pinned-plus-free-plus-replacer sum of spec invariant §8.1: the
number of frames with a positive pin count, plus the length of the free
list, plus the replacer's `Size()`. -/
def frameSum (s : BufferPoolManager) : Nat :=
  (s.frames.filter (fun fr => 0 < fr.pin_count)).length +
    s.free_frames.length + s.replacer.size

/-- True when the replacer either does not track the frame or tracks it as
evictable (the condition under which `LRUKReplacer::Remove` does not hit its
assertion). -/
def evictableOrUntracked (rep : LRUKReplacer) (fid : Int) : Bool :=
  match alistLookup rep.node_store fid with
  | none => true
  | some node => node.is_evictable

/-- The history the replacer currently stores for a frame (empty when the
frame is untracked). -/
def oldHistory (s : LRUKReplacer) (f : Int) : List Nat :=
  match alistLookup s.node_store f with
  | none => []
  | some node => node.history

/-- Front-truncation step of `RecordAccess`: drop the oldest entry when the
history is already at capacity `k`. -/
def truncatedTo (h : List Nat) (k : Nat) : List Nat :=
  if h.length = k then h.tail else h

/-- Well-formedness of a replacer state, true of every state reachable
through the public interface from `init` when all recorded frame ids are
valid: frame ids are nonnegative and unique, histories are bounded by `k`
and hold timestamps strictly below the current one, and `curr_size` counts
the evictable nodes. -/
def ReplacerWF (s : LRUKReplacer) : Prop :=
  (∀ x ∈ s.node_store, 0 ≤ x.1) ∧
  (s.node_store.map Prod.fst).Nodup ∧
  (∀ x ∈ s.node_store, x.2.history.length ≤ s.k) ∧
  (∀ x ∈ s.node_store, ∀ t ∈ x.2.history, t < s.current_timestamp) ∧
  s.curr_size = countEvictable s.node_store

instance (s : LRUKReplacer) : Decidable (ReplacerWF s) := by
  unfold ReplacerWF
  infer_instance

/-! ### Concrete scenario states used by the claim theorems -/

/-- Witness for C5 at a concrete well-formed state: one evictable frame with
one recorded access. -/
def evictDemoState : LRUKReplacer :=
  { node_store := [(0, { history := [0], is_evictable := true })],
    current_timestamp := 1, curr_size := 1, replacer_size := 5, k := 2 }

/-- A replacer state built through the public interface only: two accesses
to frame 0 (timestamps 0, 1), three to frame 2 (timestamps 2, 3, 4; the
first is truncated away), one to frame 1 (timestamp 5), and frames 0 and 1
made evictable. -/
def lrukDemo : Option LRUKReplacer :=
  (LRUKReplacer.init 5 2).RecordAccess 0 AccessType.Unknown >>= fun s =>
  s.RecordAccess 0 AccessType.Unknown >>= fun s =>
  s.RecordAccess 2 AccessType.Unknown >>= fun s =>
  s.RecordAccess 2 AccessType.Unknown >>= fun s =>
  s.RecordAccess 2 AccessType.Unknown >>= fun s =>
  s.RecordAccess 1 AccessType.Unknown >>= fun s =>
  s.SetEvictable 0 true >>= fun s =>
  s.SetEvictable 1 true

/-- A full round trip on a one-frame pool: allocate page 0, write byte 171
throughout its buffer via a write guard, flush it (so the on-disk bytes of
page 0 are 171s), drop the guard, allocate page 1 (which evicts frame 0),
pin and release page 1 so frame 0 becomes evictable again, then fetch page 0
again with `CheckedReadPage`. -/
def roundTripDemo : Option (ReadPageGuard × BufferPoolManager) :=
  (BufferPoolManager.init 1 2).NewPage >>= fun r1 =>
  r1.2.CheckedWritePage 0 >>= fun r2 =>
  match r2.1 with
  | none => none
  | some g =>
      g.storeBytes r2.2 (List.replicate BUSTUB_PAGE_SIZE 171) >>= fun s3 =>
      s3.FlushPage 0 >>= fun r4 =>
      g.Drop r4.2 >>= fun r5 =>
      r5.2.NewPage >>= fun r6 =>
      r6.2.CheckedReadPage 1 >>= fun r7 =>
      match r7.1 with
      | none => none
      | some rg =>
          rg.Drop r7.2 >>= fun r8 =>
          r8.2.CheckedReadPage 0 >>= fun r9 =>
          match r9.1 with
          | none => none
          | some rg2 => some (rg2, r9.2)

/-- Pool of two frames: allocate pages 0 and 1, pin and release page 0,
delete page 0 (freeing frame 0), allocate page 2 (which lands on frame 0,
so its page id differs from its frame id), pin and release page 2, then
fetch the absent page 3, which evicts frame 0. -/
def stalePtDemo : Option BufferPoolManager :=
  (BufferPoolManager.init 2 2).NewPage >>= fun r1 =>
  r1.2.NewPage >>= fun r2 =>
  r2.2.CheckedReadPage 0 >>= fun r3 =>
  match r3.1 with
  | none => none
  | some g1 =>
      g1.Drop r3.2 >>= fun r4 =>
      r4.2.DeletePage 0 >>= fun r5 =>
      (if r5.1 then some r5.2 else none) >>= fun s5 =>
      s5.NewPage >>= fun r6 =>
      r6.2.CheckedReadPage 2 >>= fun r7 =>
      match r7.1 with
      | none => none
      | some g2 =>
          g2.Drop r7.2 >>= fun r8 =>
          r8.2.CheckedReadPage 3 >>= fun r9 =>
          match r9.1 with
          | none => none
          | some _ => some r9.2

/-- The buffer-pool state used to witness the amended C8: page 0 resident
on frame 0, unpinned, tracked evictable. -/
def deleteDemoState : BufferPoolManager :=
  { num_frames := 1, next_page_id := 1,
    frames := [{ frame_id := 0, pin_count := 0, is_dirty := false,
                 data := List.replicate BUSTUB_PAGE_SIZE 0 }],
    page_table := [(0, 0)],
    free_frames := [],
    replacer :=
      { node_store := [(0, { history := [0], is_evictable := true })],
        current_timestamp := 1, curr_size := 1, replacer_size := 1, k := 2 },
    disk := [] }

/-- A one-frame pool with page 0 resident and read-guarded, followed by a
move-construction from the live read guard. -/
def readGuardMoveDemo : Option (ReadPageGuard × ReadPageGuard) :=
  (BufferPoolManager.init 1 2).NewPage >>= fun r1 =>
  r1.2.CheckedReadPage 0 >>= fun r2 =>
  match r2.1 with
  | none => none
  | some g => (g.moveCtor r2.2).map (fun t => (t.1, t.2.1))

/-! ### Association-list lemmas -/

lemma alistLookup_erase_self {β : Type} (l : List (Int × β)) (key : Int) :
    alistLookup (alistErase l key) key = none := by
  induction l with
  | nil => rfl
  | cons hd tl ih =>
      by_cases h : hd.1 = key
      · simpa [alistErase, h] using ih
      · simpa [alistErase, alistLookup, h] using ih

lemma alistLookup_of_mem_nodup {β : Type} {l : List (Int × β)} {key : Int}
    {b : β} (hnd : (l.map Prod.fst).Nodup) (hmem : (key, b) ∈ l) :
    alistLookup l key = some b := by
  induction l with
  | nil => cases hmem
  | cons hd tl ih =>
      rcases List.mem_cons.mp hmem with h | h
      · simp [alistLookup, ← h]
      · have hkey : hd.1 ≠ key := by
          intro hk
          have : key ∈ tl.map Prod.fst :=
            List.mem_map.mpr ⟨(key, b), h, rfl⟩
          exact (List.nodup_cons.mp hnd).1 (hk ▸ this)
        simpa [alistLookup, hkey] using ih (List.nodup_cons.mp hnd).2 h

lemma alistLookup_append_self {β : Type} (b : β) :
    ∀ (l : List (Int × β)) (key : Int), alistLookup l key = none →
      alistLookup (l ++ [(key, b)]) key = some b := by
  intro l
  induction l with
  | nil => intro key _; simp [alistLookup]
  | cons hd tl ih =>
      intro key h
      by_cases hk : hd.1 = key
      · simp [alistLookup, hk] at h
      · simp only [alistLookup, hk, if_false] at h
        simp only [List.cons_append, alistLookup, hk, if_false]
        exact ih key h

lemma alistLookup_update_self {β : Type} (l : List (Int × β)) (key : Int)
    (g : β → β) :
    alistLookup (alistUpdate l key g) key = (alistLookup l key).map g := by
  induction l with
  | nil => rfl
  | cons hd tl ih =>
      by_cases hk : hd.1 = key
      · simp [alistUpdate, alistLookup, hk]
      · simpa [alistUpdate, alistLookup, hk] using ih

lemma mem_of_alistLookup {β : Type} {l : List (Int × β)} {key : Int} {b : β}
    (h : alistLookup l key = some b) : (key, b) ∈ l := by
  induction l with
  | nil => cases h
  | cons hd tl ih =>
      by_cases hk : hd.1 = key
      · simp only [alistLookup, hk, if_true, Option.some.injEq] at h
        have hhd : (key, b) = hd := by
          cases hd
          simp_all
        rw [hhd]
        exact List.mem_cons_self _ _
      · simp only [alistLookup, hk, if_false] at h
        exact List.mem_cons_of_mem _ (ih h)

lemma countEvictable_eq_zero {l : List (Int × LRUKNode)} :
    countEvictable l = 0 ↔ ∀ x ∈ l, x.2.is_evictable = false := by
  unfold countEvictable
  rw [List.length_eq_zero, List.filter_eq_nil_iff]
  constructor
  · intro h x hx
    simpa using h x hx
  · intro h x hx
    simpa using h x hx

lemma countEvictable_pos {l : List (Int × LRUKNode)} {f : Int}
    {node : LRUKNode} (hmem : (f, node) ∈ l)
    (hev : node.is_evictable = true) : 0 < countEvictable l := by
  unfold countEvictable
  have : (f, node) ∈ l.filter (fun x => x.2.is_evictable) :=
    List.mem_filter.mpr ⟨hmem, by simp [hev]⟩
  exact List.length_pos.mpr (List.ne_nil_of_mem this)

lemma listGetSet {α : Type} :
    ∀ (l : List α) (i : Nat) (a : α), i < l.length →
      (l.set i a).get? i = some a := by
  intro l
  induction l with
  | nil => intro i a h; simp at h
  | cons hd tl ih =>
      intro i a h
      cases i with
      | zero => rfl
      | succ j =>
          simp only [List.set, List.get?]
          exact ih j a (by simpa using h)

/-! ### The eviction loop of `LRUKReplacer::Evict` -/

/-- Once `evict_success` is set, it stays set, and the answer slot either
keeps its carried value or names an evictable node of the remaining list. -/
lemma evictLoop_carry (k cur : Nat) (l : List (Int × LRUKNode)) :
    ∀ (is_inf : Bool) (maxd : Nat) (ans : Int),
      (evictLoop k cur l true is_inf maxd ans).1 = true ∧
      ((evictLoop k cur l true is_inf maxd ans).2 = ans ∨
        ∃ node, ((evictLoop k cur l true is_inf maxd ans).2, node) ∈ l ∧
          node.is_evictable = true) := by
  induction l with
  | nil =>
      intro is_inf maxd ans
      simp [evictLoop]
  | cons hd tl ih =>
      intro is_inf maxd ans
      obtain ⟨f, node⟩ := hd
      simp only [evictLoop]
      split_ifs with h1 h2 h3 h4 h5 h6
      · -- not evictable: skip
        rcases ih is_inf maxd ans with ⟨ha, hb⟩
        refine ⟨ha, ?_⟩
        rcases hb with hb | ⟨n, hn, he⟩
        · exact Or.inl hb
        · exact Or.inr ⟨n, List.mem_cons_of_mem _ hn, he⟩
      · -- empty history: break with this frame
        refine ⟨rfl, Or.inr ⟨node, List.mem_cons_self _ _, ?_⟩⟩
        simpa using h1
      · -- full history, no infinite frame seen yet, new maximum
        rcases ih is_inf (cur - node.history.headD 0) f with ⟨ha, hb⟩
        refine ⟨ha, Or.inr ?_⟩
        rcases hb with hb | ⟨n, hn, he⟩
        · exact ⟨node, by rw [hb]; exact List.mem_cons_self _ _, by simpa using h1⟩
        · exact ⟨n, List.mem_cons_of_mem _ hn, he⟩
      · -- full history, not a new maximum
        rcases ih is_inf maxd ans with ⟨ha, hb⟩
        refine ⟨ha, ?_⟩
        rcases hb with hb | ⟨n, hn, he⟩
        · exact Or.inl hb
        · exact Or.inr ⟨n, List.mem_cons_of_mem _ hn, he⟩
      · -- short history, new maximum among the infinite group
        rcases ih true (cur - node.history.headD 0) f with ⟨ha, hb⟩
        refine ⟨ha, Or.inr ?_⟩
        rcases hb with hb | ⟨n, hn, he⟩
        · exact ⟨node, by rw [hb]; exact List.mem_cons_self _ _, by simpa using h1⟩
        · exact ⟨n, List.mem_cons_of_mem _ hn, he⟩
      · -- short history, not a new maximum
        rcases ih true maxd ans with ⟨ha, hb⟩
        refine ⟨ha, ?_⟩
        rcases hb with hb | ⟨n, hn, he⟩
        · exact Or.inl hb
        · exact Or.inr ⟨n, List.mem_cons_of_mem _ hn, he⟩
      · -- history longer than k: only evict_success is set
        rcases ih is_inf maxd ans with ⟨ha, hb⟩
        refine ⟨ha, ?_⟩
        rcases hb with hb | ⟨n, hn, he⟩
        · exact Or.inl hb
        · exact Or.inr ⟨n, List.mem_cons_of_mem _ hn, he⟩

/-- A pass over nodes none of which is evictable changes nothing. -/
lemma evictLoop_all_unevictable (k cur : Nat) (l : List (Int × LRUKNode)) :
    ∀ (es is_inf : Bool) (maxd : Nat) (ans : Int),
      (∀ x ∈ l, x.2.is_evictable = false) →
      evictLoop k cur l es is_inf maxd ans = (es, ans) := by
  induction l with
  | nil => intro es is_inf maxd ans _; rfl
  | cons hd tl ih =>
      intro es is_inf maxd ans h
      obtain ⟨f, node⟩ := hd
      have hev : node.is_evictable = false := h (f, node) (List.mem_cons_self _ _)
      simp only [evictLoop, hev, if_pos]
      exact ih es is_inf maxd ans (fun x hx => h x (List.mem_cons_of_mem _ hx))

/-- Started from the loop's initial accumulators, the loop fails exactly
when no node is evictable, and on success the answer names an evictable
node.  Needs the bounded-history and fresh-timestamp invariants so that the
first evictable node always lands in one of the two assigning branches with
a strictly positive delta. -/
lemma evictLoop_start (k cur : Nat) (l : List (Int × LRUKNode))
    (hlen : ∀ x ∈ l, x.2.history.length ≤ k)
    (hts : ∀ x ∈ l, ∀ t ∈ x.2.history, t < cur) :
    ∀ (ans : Int),
      ((evictLoop k cur l false false 0 ans).1 = false →
        (∀ x ∈ l, x.2.is_evictable = false) ∧
          (evictLoop k cur l false false 0 ans).2 = ans) ∧
      ((evictLoop k cur l false false 0 ans).1 = true →
        ∃ node, ((evictLoop k cur l false false 0 ans).2, node) ∈ l ∧
          node.is_evictable = true) := by
  induction l with
  | nil =>
      intro ans
      exact ⟨fun _ => ⟨by simp, rfl⟩, by simp [evictLoop]⟩
  | cons hd tl ih =>
      intro ans
      obtain ⟨f, node⟩ := hd
      have hlen' : ∀ x ∈ tl, x.2.history.length ≤ k :=
        fun x hx => hlen x (List.mem_cons_of_mem _ hx)
      have hts' : ∀ x ∈ tl, ∀ t ∈ x.2.history, t < cur :=
        fun x hx => hts x (List.mem_cons_of_mem _ hx)
      by_cases hev : node.is_evictable = false
      · -- skipped node: recurse with untouched accumulators
        have hstep : evictLoop k cur ((f, node) :: tl) false false 0 ans =
            evictLoop k cur tl false false 0 ans := by
          simp [evictLoop, hev]
        rcases ih hlen' hts' ans with ⟨ihf, iht⟩
        constructor
        · intro hfail
          rw [hstep] at hfail
          rcases ihf hfail with ⟨hall, hans⟩
          refine ⟨?_, by rw [hstep]; exact hans⟩
          intro x hx
          rcases List.mem_cons.mp hx with hx | hx
          · rw [hx]; exact hev
          · exact hall x hx
        · intro hsucc
          rw [hstep] at hsucc
          rcases iht hsucc with ⟨n, hn, he⟩
          exact ⟨n, by rw [hstep]; exact List.mem_cons_of_mem _ hn, he⟩
      · -- the first evictable node necessarily assigns the answer
        have hevT : node.is_evictable = true := by
          cases h : node.is_evictable
          · exact absurd h hev
          · rfl
        by_cases hemp : node.history = []
        · have hstep : evictLoop k cur ((f, node) :: tl) false false 0 ans =
              (true, f) := by
            simp [evictLoop, hev, hemp]
          rw [hstep]
          refine ⟨fun h => ?_, fun _ => ⟨node, List.mem_cons_self _ _, hevT⟩⟩
          simp at h
        · -- nonempty history: the head is a recorded timestamp below cur
          obtain ⟨a, rest, hh⟩ : ∃ a rest, node.history = a :: rest := by
            cases hhh : node.history with
            | nil => exact absurd hhh hemp
            | cons a rest => exact ⟨a, rest, rfl⟩
          have ha_lt : a < cur := by
            refine hts (f, node) (List.mem_cons_self _ _) a ?_
            rw [hh]
            simp
          have hd_pos : 0 < cur - a := by omega
          by_cases hk : node.history.length = k
          · have hk' : (a :: rest).length = k := by rw [← hh]; exact hk
            have hstep : evictLoop k cur ((f, node) :: tl) false false 0 ans =
                evictLoop k cur tl true false (cur - a) f := by
              simp [evictLoop, hev, hh, hk', hd_pos]
            rcases evictLoop_carry k cur tl false (cur - a) f with ⟨ha, hb⟩
            rw [hstep]
            refine ⟨fun h => absurd (ha.symm.trans h) (by simp), fun _ => ?_⟩
            rcases hb with hb | ⟨n, hn, he⟩
            · exact ⟨node, by rw [hb]; exact List.mem_cons_self _ _, hevT⟩
            · exact ⟨n, List.mem_cons_of_mem _ hn, he⟩
          · have hle : node.history.length ≤ k :=
              hlen (f, node) (List.mem_cons_self _ _)
            have hlt : (a :: rest).length < k := by
              rw [← hh]
              omega
            have hk'' : ¬((a :: rest).length = k) := by omega
            have hstep : evictLoop k cur ((f, node) :: tl) false false 0 ans =
                evictLoop k cur tl true true (cur - a) f := by
              have h1 : ¬(rest.length + 1 = k) := by simpa using hk''
              have h2 : rest.length + 1 < k := by simpa using hlt
              simp [evictLoop, hev, hh, hd_pos, h1, h2]
            rcases evictLoop_carry k cur tl true (cur - a) f with ⟨ha, hb⟩
            rw [hstep]
            refine ⟨fun h => absurd (ha.symm.trans h) (by simp), fun _ => ?_⟩
            rcases hb with hb | ⟨n, hn, he⟩
            · exact ⟨node, by rw [hb]; exact List.mem_cons_self _ _, hevT⟩
            · exact ⟨n, List.mem_cons_of_mem _ hn, he⟩

/-! ### Claim theorems -/

/-- Claim C5: on every well-formed replacer state, `Evict` returns `none`
exactly when the count of evictable frames is 0; otherwise it returns a
frame that is currently marked evictable, removes that frame's node from
the replacer entirely, and decreases `Size()` by exactly 1. -/
theorem C5_evict_contract (s : LRUKReplacer) (hwf : ReplacerWF s) :
    ((s.Evict).1 = none ↔ countEvictable s.node_store = 0) ∧
    (∀ f rep', s.Evict = (some f, rep') →
      (∃ node, alistLookup s.node_store f = some node ∧
        node.is_evictable = true) ∧
      alistLookup rep'.node_store f = none ∧
      rep'.curr_size + 1 = s.curr_size) := by
  obtain ⟨hpos, hnd, hlen, hts, hcnt⟩ := hwf
  rcases hst : evictLoop s.k s.current_timestamp s.node_store false false 0 (-1)
    with ⟨es, ans⟩
  rcases evictLoop_start s.k s.current_timestamp s.node_store hlen hts (-1)
    with ⟨hfail, hsucc⟩
  rw [hst] at hfail hsucc
  have hev : s.Evict =
      if ans = (-1) then
        (none, if es = true then
            { s with curr_size := s.curr_size - 1,
                     node_store := alistErase s.node_store ans }
          else s)
      else
        (some ans, if es = true then
            { s with curr_size := s.curr_size - 1,
                     node_store := alistErase s.node_store ans }
          else s) := by
    unfold LRUKReplacer.Evict
    rw [hst]
  have hiff : ans = -1 ↔ countEvictable s.node_store = 0 := by
    constructor
    · intro hans
      cases hes : es
      · rcases hfail (by rw [hes]) with ⟨hall, _⟩
        exact countEvictable_eq_zero.mpr hall
      · rcases hsucc (by rw [hes]) with ⟨node, hmem, _⟩
        have := hpos (ans, node) hmem
        omega
    · intro hc
      have hall := countEvictable_eq_zero.mp hc
      have := evictLoop_all_unevictable s.k s.current_timestamp s.node_store
        false false 0 (-1) hall
      rw [hst] at this
      exact (Prod.mk.injEq _ _ _ _ ▸ this).2
  constructor
  · by_cases hans : ans = -1
    · rw [hev, if_pos hans]
      simpa using hiff.mp hans
    · rw [hev, if_neg hans]
      simp only [Option.some_ne_none, false_iff]
      intro hc
      exact hans (hiff.mpr hc)
  · intro f rep' heq
    rw [hev] at heq
    by_cases hans : ans = -1
    · rw [if_pos hans] at heq
      simp at heq
    · rw [if_neg hans] at heq
      have hf : f = ans := by
        have := congrArg Prod.fst heq
        simpa using this.symm
      have hrep : rep' = (if es = true then
          { s with curr_size := s.curr_size - 1,
                   node_store := alistErase s.node_store ans }
        else s) := by
        have := congrArg Prod.snd heq
        simpa using this.symm
      cases hes : es
      · rcases hfail (by rw [hes]) with ⟨_, hanseq⟩
        exact absurd hanseq hans
      · rcases hsucc (by rw [hes]) with ⟨node, hmem, hevn⟩
        have hlook : alistLookup s.node_store ans = some node :=
          alistLookup_of_mem_nodup hnd hmem
        have hcount : 0 < countEvictable s.node_store :=
          countEvictable_pos hmem hevn
        rw [hes] at hrep
        simp only [if_pos] at hrep
        refine ⟨⟨node, by rw [hf]; exact hlook, hevn⟩, ?_, ?_⟩
        · rw [hrep, hf]
          exact alistLookup_erase_self s.node_store ans
        · rw [hrep]
          simp only []
          omega


/-- Witness for C5: the contract instantiated at `evictDemoState`. -/
theorem C5_evict_contract_witness :
    ((evictDemoState.Evict).1 = none ↔
      countEvictable evictDemoState.node_store = 0) ∧
    (∀ f rep', evictDemoState.Evict = (some f, rep') →
      (∃ node, alistLookup evictDemoState.node_store f = some node ∧
        node.is_evictable = true) ∧
      alistLookup rep'.node_store f = none ∧
      rep'.curr_size + 1 = evictDemoState.curr_size) :=
  C5_evict_contract evictDemoState (by decide)


/-- Claim C3 is violated by the code: in `lrukDemo`, frame 1 is evictable
with only one recorded access (fewer than `k = 2`, so backward k-distance
`+∞`) while frame 0 is evictable with exactly `k` accesses (finite
distance), yet `Evict` picks frame 0, because a finite-distance frame seen
before the first infinite-distance frame keeps the shared running maximum.
The claim requires frame 1 to be preferred. -/
theorem C3_evict_prefers_finite_over_infinite :
    lrukDemo = some
      { node_store :=
          [(0, { history := [0, 1], is_evictable := true }),
           (2, { history := [3, 4], is_evictable := false }),
           (1, { history := [5], is_evictable := true })],
        current_timestamp := 6, curr_size := 2, replacer_size := 5, k := 2 } ∧
    lrukDemo.map (fun s => (s.Evict).1) = some (some 0) := by
  exact ⟨rfl, rfl⟩

/-- Claim C6 is violated by the code: a `RecordAccess` with access type
`Scan` does not advance the global timestamp counter (the increment is
inside the non-scan branches), here shown on a fresh replacer where the
counter stays at 0. -/
theorem C6_scan_does_not_advance_timestamp :
    ((LRUKReplacer.init 2 2).RecordAccess 0 AccessType.Scan).map
      LRUKReplacer.current_timestamp = some 0 ∧
    ((LRUKReplacer.init 2 2).RecordAccess 0 AccessType.Scan).map
      LRUKReplacer.current_timestamp ≠
      some ((LRUKReplacer.init 2 2).current_timestamp + 1) := by
  exact ⟨rfl, by decide⟩

/-- Claim C6 as amended: for a valid frame id and `k ≥ 1`, `RecordAccess`
creates the frame's node on first access; on a non-`Scan` access it appends
the current timestamp to the frame's history, truncating from the front so
the length never exceeds `k`, and advances the counter; on a `Scan` access
both the history and the counter are left unchanged. -/
theorem C6_record_access_amended (s : LRUKReplacer) (f : Int)
    (t : AccessType) (hf0 : 0 ≤ f) (hfr : f.toNat ≤ s.replacer_size)
    (hk : 1 ≤ s.k)
    (hlen : ∀ x ∈ s.node_store, x.2.history.length ≤ s.k) :
    ∃ s', s.RecordAccess f t = some s' ∧
      (∃ node', alistLookup s'.node_store f = some node' ∧
        node'.history =
          (if t = AccessType.Scan then oldHistory s f
           else truncatedTo (oldHistory s f) s.k ++ [s.current_timestamp]) ∧
        node'.history.length ≤ s.k) ∧
      s'.current_timestamp =
        (if t = AccessType.Scan then s.current_timestamp
         else s.current_timestamp + 1) := by
  have hrange : ¬(f < 0 ∨ s.replacer_size < f.toNat) := by
    push_neg
    exact ⟨by omega, hfr⟩
  unfold LRUKReplacer.RecordAccess
  rw [if_neg hrange]
  cases hlook : alistLookup s.node_store f with
  | none =>
      by_cases hscan : t = AccessType.Scan
      · refine ⟨{ s with node_store := s.node_store ++ [(f, LRUKNode.default)] },
          by simp [hscan], ?_, by simp [hscan]⟩
        refine ⟨LRUKNode.default, ?_, ?_, by simp [LRUKNode.default, hk]⟩
        · exact alistLookup_append_self _ _ _ hlook
        · simp [hscan, oldHistory, hlook, LRUKNode.default]
      · refine ⟨{ s with
            node_store := s.node_store ++
              [(f, { history := [s.current_timestamp],
                     is_evictable := false })],
            current_timestamp := s.current_timestamp + 1 },
          by simp [hscan], ?_, by simp [hscan]⟩
        refine ⟨_, alistLookup_append_self _ _ _ hlook, ?_, ?_⟩
        · simp only [if_neg hscan, oldHistory, hlook, truncatedTo]
          have h0 : ¬((0 : Nat) = s.k) := by omega
          simp [h0]
        · simpa using hk
  | some node =>
      have hmem := mem_of_alistLookup hlook
      have hnodelen : node.history.length ≤ s.k := hlen (f, node) hmem
      by_cases hscan : t = AccessType.Scan
      · refine ⟨s, by simp [hscan], ?_, by simp [hscan]⟩
        exact ⟨node, hlook, by simp [hscan, oldHistory, hlook], hnodelen⟩
      · refine ⟨{ s with
            node_store := alistUpdate s.node_store f
              (fun n => { n with history :=
                (if node.history.length = s.k then node.history.tail
                 else node.history) ++ [s.current_timestamp] }),
            current_timestamp := s.current_timestamp + 1 },
          by simp [hscan], ?_, by simp [hscan]⟩
        refine ⟨{ node with history :=
            (if node.history.length = s.k then node.history.tail
             else node.history) ++ [s.current_timestamp] }, ?_, ?_, ?_⟩
        · show alistLookup (alistUpdate s.node_store f
              (fun n => { n with history :=
                (if node.history.length = s.k then node.history.tail
                 else node.history) ++ [s.current_timestamp] })) f = _
          rw [alistLookup_update_self, hlook]
          rfl
        · simp [if_neg hscan, oldHistory, hlook, truncatedTo]
        · by_cases hfull : node.history.length = s.k
          · have htl : node.history.tail.length = s.k - 1 := by
              rw [List.length_tail, hfull]
            simp only [List.length_append, hfull, if_pos, htl,
              List.length_singleton]
            omega
          · simp only [List.length_append, if_neg hfull,
              List.length_singleton]
            omega

/-- Witness for the amended C6: a non-scan access on a fresh replacer. -/
theorem C6_record_access_amended_witness :
    ∃ s', (LRUKReplacer.init 3 2).RecordAccess 0 AccessType.Unknown =
        some s' ∧
      (∃ node', alistLookup s'.node_store 0 = some node' ∧
        node'.history =
          (if AccessType.Unknown = AccessType.Scan then
            oldHistory (LRUKReplacer.init 3 2) 0
           else truncatedTo (oldHistory (LRUKReplacer.init 3 2) 0)
              (LRUKReplacer.init 3 2).k ++
              [(LRUKReplacer.init 3 2).current_timestamp]) ∧
        node'.history.length ≤ (LRUKReplacer.init 3 2).k) ∧
      s'.current_timestamp =
        (if AccessType.Unknown = AccessType.Scan then
          (LRUKReplacer.init 3 2).current_timestamp
         else (LRUKReplacer.init 3 2).current_timestamp + 1) :=
  C6_record_access_amended (LRUKReplacer.init 3 2) 0 AccessType.Unknown
    (by decide) (by decide) (by decide) (by decide)

/-- Claim C7 is violated by the code: `SetEvictable(0, true)` on a frame
the replacer does not yet track inserts a copy of a default node into the
store but then sets the evictable flag on the discarded local object, so
`Size()` becomes 1 while no tracked node is evictable. -/
theorem C7_set_evictable_desyncs_size :
    ((LRUKReplacer.init 2 2).SetEvictable 0 true).map
      (fun s => (s.size, countEvictable s.node_store)) = some (1, 0) := by
  rfl


/-- Claim C2 is violated by the code: on a one-frame pool the sum of pinned
frames, free-list length and replacer size is 1 initially, but after a
single `NewPage` (which pops the free frame, leaves the pin count at 0 — the
increment is commented out — and tracks the frame as non-evictable) the sum
drops to 0. -/
theorem C2_new_page_breaks_frame_accounting :
    frameSum (BufferPoolManager.init 1 2) = 1 ∧
    ((BufferPoolManager.init 1 2).NewPage).map (fun r => frameSum r.2) =
      some 0 := by
  exact ⟨rfl, rfl⟩


/-- Claim C1 is violated by the code: the miss path of `CheckedReadPage`
(and `CheckedWritePage`) never schedules a disk read; it only `Reset`s the
victim frame.  In `roundTripDemo` the guard returned for page 0 observes a
zero byte although page 0's last flushed contents hold byte 171. -/
theorem C1_missing_disk_read_on_miss :
    roundTripDemo.map (fun r =>
      (r.1.page_id, (r.1.GetData r.2).map (fun d => d.headD 9),
        (diskRead r.2.disk 0).headD 9)) =
      some (0, some 0, 171) := by
  rfl


/-- Claim C4 is violated by the code: the miss path removes the victim's
page-table entry with `page_table_.erase(newpage->frame_id_)` — keyed by the
frame id, not the victim page's id.  In `stalePtDemo`, frame 0 held page 2
when it was evicted for page 3; page 2's entry survives, so the final page
table maps both page 2 and page 3 to frame 0, which holds page 3's
(zeroed) data. -/
theorem C4_stale_page_table_entry :
    stalePtDemo.map BufferPoolManager.page_table =
      some [(1, 1), (2, 0), (3, 0)] := by
  rfl

/-- Claim C8 is refuted as stated: after `NewPage` on a fresh one-frame
pool, page 0 is resident with pin count 0 (so the claim's `otherwise`
branch demands `true`), yet `DeletePage` hits the replacer's
non-evictable-removal assertion, because `NewPage` left the frame tracked
non-evictable at pin count 0. -/
theorem C8_delete_fresh_page_aborts :
    ((BufferPoolManager.init 1 2).NewPage).map (fun r =>
      (r.1, alistLookup r.2.page_table 0, r.2.GetPinCount 0)) =
      some (0, some 0, some 0) ∧
    ((BufferPoolManager.init 1 2).NewPage).bind
      (fun r => r.2.DeletePage r.1) = none := by
  exact ⟨rfl, rfl⟩

/-- Claim C8 as amended: for a page id other than the sentinel,
`DeletePage` returns `false` and leaves the state unchanged when the page is
resident with positive pin count; when the page is resident with pin count 0
and its frame's replacer node is evictable or untracked, it removes the
page-table entry, appends the frame to the free list, erases the frame from
the replacer, resets the frame and returns `true` (with a tracked
non-evictable node it instead hits the replacer's assertion); a not-present
page id yields `true` with no change; and any call that returns `true`
leaves a state on which a second call returns `true` again. -/
theorem C8_delete_page_amended (s : BufferPoolManager) (p : Int)
    (hp : p ≠ INVALID_PAGE_ID) :
    (∀ fid fr, alistLookup s.page_table p = some fid →
      s.frameGet fid = some fr → 0 < fr.pin_count →
      s.DeletePage p = some (false, s)) ∧
    (∀ fid fr, alistLookup s.page_table p = some fid →
      s.frameGet fid = some fr → fr.pin_count = 0 →
      evictableOrUntracked s.replacer fid = true →
      ∃ s', s.DeletePage p = some (true, s') ∧
        alistLookup s'.page_table p = none ∧
        s'.free_frames = s.free_frames ++ [fid] ∧
        alistLookup s'.replacer.node_store fid = none ∧
        s'.frameGet fid = some fr.Reset) ∧
    (alistLookup s.page_table p = none → s.DeletePage p = some (true, s)) ∧
    (∀ s', s.DeletePage p = some (true, s') →
      s'.DeletePage p = some (true, s')) := by
  refine ⟨?_, ?_, ?_, ?_⟩
  · intro fid fr h1 h2 hpin
    simp only [BufferPoolManager.DeletePage, if_neg hp, h1, h2]
    simp [hpin]
  · intro fid fr h1 h2 hpin hev
    have hfid0 : ¬(fid < 0) := by
      intro hc
      simp only [BufferPoolManager.frameGet, if_pos hc] at h2
      exact Option.noConfusion h2
    have hlt : fid.toNat < s.frames.length := by
      simp only [BufferPoolManager.frameGet, if_neg hfid0] at h2
      rcases List.get?_eq_some.mp h2 with ⟨hl, _⟩
      exact hl
    have hnpin : ¬(0 < fr.pin_count) := by omega
    cases hrl : alistLookup s.replacer.node_store fid with
    | none =>
        refine ⟨BufferPoolManager.frameSet
            { s with page_table := alistErase s.page_table p,
                     free_frames := s.free_frames ++ [fid] } fid fr.Reset,
          ?_, ?_, rfl, ?_, ?_⟩
        · simp only [BufferPoolManager.DeletePage, if_neg hp, h1, h2]
          simp only [hnpin, if_neg, LRUKReplacer.Remove, hrl]
          rfl
        · exact alistLookup_erase_self _ _
        · exact hrl
        · simp only [BufferPoolManager.frameGet, BufferPoolManager.frameSet,
            if_neg hfid0]
          exact listGetSet _ _ _ (by simpa using hlt)
    | some node =>
        have hevn : node.is_evictable = true := by
          unfold evictableOrUntracked at hev
          rw [hrl] at hev
          exact hev
        have hevn' : ¬(node.is_evictable = false) := by simp [hevn]
        refine ⟨BufferPoolManager.frameSet
            { s with page_table := alistErase s.page_table p,
                     free_frames := s.free_frames ++ [fid],
                     replacer := { s.replacer with
                       node_store :=
                         alistErase s.replacer.node_store fid,
                       curr_size := s.replacer.curr_size - 1 } } fid fr.Reset,
          ?_, ?_, rfl, ?_, ?_⟩
        · simp only [BufferPoolManager.DeletePage, if_neg hp, h1, h2]
          simp only [hnpin, if_neg, LRUKReplacer.Remove, hrl]
          simp only [hevn', if_neg]
          rfl
        · exact alistLookup_erase_self _ _
        · exact alistLookup_erase_self _ _
        · simp only [BufferPoolManager.frameGet, BufferPoolManager.frameSet,
            if_neg hfid0]
          exact listGetSet _ _ _ (by simpa using hlt)
  · intro h1
    simp only [BufferPoolManager.DeletePage, if_neg hp, h1]
  · intro s' h
    rcases hlp : alistLookup s.page_table p with _ | fid
    · simp only [BufferPoolManager.DeletePage, if_neg hp, hlp] at h
      have hs : s = s' := by
        simpa using h
      rw [← hs]
      simp only [BufferPoolManager.DeletePage, if_neg hp, hlp]
    · rcases hfg : s.frameGet fid with _ | fr
      · simp only [BufferPoolManager.DeletePage, if_neg hp, hlp, hfg] at h
        exact Option.noConfusion h
      · simp only [BufferPoolManager.DeletePage, if_neg hp, hlp, hfg] at h
        by_cases hpin : 0 < fr.pin_count
        · rw [if_pos hpin] at h
          simp at h
        · rw [if_neg hpin] at h
          rcases hrm : LRUKReplacer.Remove s.replacer fid with _ | rep'
          · rw [hrm] at h
            simp at h
          · rw [hrm] at h
            have hs' : s'.page_table = alistErase s.page_table p := by
              have heq := Option.some.inj h
              have h2 := congrArg (fun q => q.2.page_table) heq
              simpa [BufferPoolManager.frameSet] using h2.symm
            simp only [BufferPoolManager.DeletePage, if_neg hp, hs',
              alistLookup_erase_self]


/-- Witness for the amended C8 at `deleteDemoState` and page 0. -/
theorem C8_delete_page_amended_witness :
    (∀ fid fr, alistLookup deleteDemoState.page_table 0 = some fid →
      deleteDemoState.frameGet fid = some fr → 0 < fr.pin_count →
      deleteDemoState.DeletePage 0 = some (false, deleteDemoState)) ∧
    (∀ fid fr, alistLookup deleteDemoState.page_table 0 = some fid →
      deleteDemoState.frameGet fid = some fr → fr.pin_count = 0 →
      evictableOrUntracked deleteDemoState.replacer fid = true →
      ∃ s', deleteDemoState.DeletePage 0 = some (true, s') ∧
        alistLookup s'.page_table 0 = none ∧
        s'.free_frames = deleteDemoState.free_frames ++ [fid] ∧
        alistLookup s'.replacer.node_store fid = none ∧
        s'.frameGet fid = some fr.Reset) ∧
    (alistLookup deleteDemoState.page_table 0 = none →
      deleteDemoState.DeletePage 0 = some (true, deleteDemoState)) ∧
    (∀ s', deleteDemoState.DeletePage 0 = some (true, s') →
      s'.DeletePage 0 = some (true, s')) :=
  C8_delete_page_amended deleteDemoState 0 (by decide)


/-- Claim C9 is violated by the code: `ReadPageGuard`'s move constructor
never clears the source's `is_valid_` flag (the write guard's does), so
after move-construction the moved-from read guard still reports valid while
its frame pointer is null — its data-access methods pass the validity check
and dereference a null pointer instead of detecting an invalid guard. -/
theorem C9_read_guard_move_leaves_source_valid :
    readGuardMoveDemo.map (fun t =>
      (t.1.is_valid, t.2.is_valid, t.2.frame)) =
      some (true, true, none) := by
  rfl

/-- Claim C10: both checked page operations reject the `INVALID_PAGE_ID`
sentinel up front, returning the empty optional with the pool state
untouched. -/
theorem C10_invalid_page_id_rejected (s : BufferPoolManager) :
    s.CheckedReadPage INVALID_PAGE_ID = some (none, s) ∧
    s.CheckedWritePage INVALID_PAGE_ID = some (none, s) := by
  constructor
  · simp [BufferPoolManager.CheckedReadPage]
  · simp [BufferPoolManager.CheckedWritePage]

/-- Witness for C10 at a concrete pool. -/
theorem C10_invalid_page_id_rejected_witness :
    (BufferPoolManager.init 1 2).CheckedReadPage INVALID_PAGE_ID =
        some (none, BufferPoolManager.init 1 2) ∧
    (BufferPoolManager.init 1 2).CheckedWritePage INVALID_PAGE_ID =
        some (none, BufferPoolManager.init 1 2) :=
  C10_invalid_page_id_rejected (BufferPoolManager.init 1 2)

end Bustub
